import Mathlib

-- Shallow embedding of the school synchronisation engine of this repository:
-- run_sync.py (SchoolDataCollector, CacheManager), utils.py (DataNormalizer)
-- and shared/models.py (the Staff table and the parent_student relation),
-- together with proofs checking the specification claims against it.
--
-- Modelling conventions: datetimes are natural-number timestamps (seconds);
-- the md5 fingerprint of CacheManager.get_cache_key is abstracted to the
-- injective string "endpoint:params" it hashes; the HTML scrape of
-- _parse_max_user_id is abstracted to the optional id it extracts, carried
-- directly on the stage-2 HTTP response; regex character classes \d and
-- [A-Za-z] are read as their ASCII ranges, [А-Я] as U+0410..U+042F.

-- Python value stored under the `name` key of an API record: a string,
-- None (also used for an absent key), or a value of some other type.
inductive PyStr where
  | pnone : PyStr
  | pstr (s : String) : PyStr
  | pother : PyStr
deriving DecidableEq

-- Python value stored under the `type` key of an API record: the key can be
-- absent, present with None, or present with a string; dict.get with a
-- default distinguishes the first case from the other two.
inductive PyOptStr where
  | absent : PyOptStr
  | null : PyOptStr
  | str (s : String) : PyOptStr
deriving DecidableEq

-- Python truthiness of an optional integer (None and 0 are falsy).
def natTruthy : Option Nat → Bool
  | some n => n != 0
  | none => false

-- Python truthiness of an optional string (None and the empty string are falsy).
def strTruthy : Option String → Bool
  | some s => s != ""
  | none => false

-- `new or old` on optional strings, as written all over the update branches.
def orKeep (new old : Option String) : Option String :=
  if strTruthy new then new else old

-- `new or old` on optional datetimes (a datetime object is always truthy).
def orKeepT (new old : Option Nat) : Option Nat :=
  match new with
  | some t => some t
  | none => old

-- ==================== DataNormalizer (utils.py) ====================

def headIs (cs : List Char) (c : Char) : Bool :=
  match cs with
  | x :: _ => x == c
  | [] => false

def isDigitChar (c : Char) : Bool :=
  48 ≤ c.toNat && c.toNat ≤ 57

def isAsciiLetter (c : Char) : Bool :=
  (65 ≤ c.toNat && c.toNat ≤ 90) || (97 ≤ c.toNat && c.toNat ≤ 122)

def isUpperCyrillic (c : Char) : Bool :=
  0x410 ≤ c.toNat && c.toNat ≤ 0x42F

-- DataNormalizer.normalize_phone: keep the digits, then map the recognised
-- Russian formats to 7XXXXXXXXXX, otherwise None.
def normalize_phone (phone : Option String) : Option String :=
  match phone with
  | none => none
  | some p =>
    if p.data = [] then none
    else
      let digits := p.data.filter isDigitChar
      let reformatted : Option (List Char) :=
        if headIs digits '8' ∧ digits.length = 11 then some ('7' :: digits.tail)
        else if digits.length = 10 then some ('7' :: digits)
        else if headIs digits '7' ∧ digits.length = 11 then some digits
        else none
      match reformatted with
      | none => none
      | some d => if d.length = 11 ∧ headIs d '7' then some (String.mk d) else none

def trimChars (cs : List Char) : List Char :=
  ((cs.dropWhile Char.isWhitespace).reverse.dropWhile Char.isWhitespace).reverse

-- DataNormalizer.normalize_email: strip, lower-case, require an '@'.
def normalize_email (email : Option String) : Option String :=
  match email with
  | none => none
  | some e =>
    if e.data = [] then none
    else
      let cleaned := (trimChars e.data).map Char.toLower
      if cleaned.contains '@' then some (String.mk cleaned) else none

-- str.split() with no argument: split on whitespace runs, dropping empties.
def splitWsAux : List Char → List Char → List (List Char)
  | [], acc => if acc.isEmpty then [] else [acc.reverse]
  | c :: rest, acc =>
    if c.isWhitespace then
      if acc.isEmpty then splitWsAux rest [] else acc.reverse :: splitWsAux rest []
    else splitWsAux rest (c :: acc)

-- DataNormalizer.extract_name_parts: first token = last name, second = first
-- name, third = middle name.
def extract_name_parts (full_name : String) :
    Option String × Option String × Option String :=
  if full_name.data = [] then (none, none, none)
  else
    let parts := (splitWsAux full_name.data []).map String.mk
    (parts.get? 0, parts.get? 1, parts.get? 2)

-- re.match of one of the patterns r'^Англ_\d+' ... : the given literal head
-- followed by at least one digit.
def matchHeadDigit (head : String) (s : String) : Bool :=
  s.data.take head.data.length == head.data &&
    (match s.data.drop head.data.length with
     | c :: _ => isDigitChar c
     | [] => false)

-- re.match of r'^[A-Za-z]+_\d+'.
def matchLatinUnderscoreDigit (s : String) : Bool :=
  let letters := s.data.takeWhile isAsciiLetter
  let rest := s.data.drop letters.length
  !letters.isEmpty &&
    (match rest with
     | '_' :: c :: _ => isDigitChar c
     | _ => false)

-- re.match of r'^\d+'.
def matchLeadingDigit (s : String) : Bool :=
  match s.data with
  | c :: _ => isDigitChar c
  | [] => false

-- re.match of r'^[А-Я]{3,5}$'.
def matchShortUpperCyrillic (s : String) : Bool :=
  3 ≤ s.data.length && s.data.length ≤ 5 && s.data.all isUpperCyrillic

-- DataNormalizer.is_suspicious_name: None, empty and non-string values are
-- suspicious outright, then the pattern list is consulted.
def is_suspicious_name : PyStr → Bool
  | .pnone => true
  | .pother => true
  | .pstr s =>
    if s.data = [] then true
    else
      matchHeadDigit "Англ_" s || matchHeadDigit "Нем_" s || matchHeadDigit "Фр_" s ||
      matchHeadDigit "Мат_" s || matchHeadDigit "Инф_" s ||
      matchLatinUnderscoreDigit s || matchLeadingDigit s || matchShortUpperCyrillic s

-- ==================== CacheManager (run_sync.py) ====================

structure CacheManager (V : Type) where
  cache : List (String × V × Nat)
  cache_ttl : Nat
  hits : Nat
  misses : Nat

def cacheLookup {V : Type} : List (String × V × Nat) → String → Option (V × Nat)
  | [], _ => none
  | (k, v, ts) :: rest, key => if k = key then some (v, ts) else cacheLookup rest key

def cacheErase {V : Type} (c : List (String × V × Nat)) (key : String) :
    List (String × V × Nat) :=
  c.filter (fun e => e.1 != key)

-- CacheManager.get_cache_key: the md5 of "endpoint:str(params)"; the hash is
-- abstracted away and the hashed string itself serves as the key.
def get_cache_key (endpoint params : String) : String :=
  endpoint ++ ":" ++ params

-- CacheManager.get: fresh entries hit, stale entries are evicted and miss.
def CacheManager.get {V : Type} (cm : CacheManager V) (key : String) (now : Nat) :
    Option V × CacheManager V :=
  match cacheLookup cm.cache key with
  | some (v, ts) =>
    if now - ts < cm.cache_ttl then (some v, { cm with hits := cm.hits + 1 })
    else (none, { cm with cache := cacheErase cm.cache key, misses := cm.misses + 1 })
  | none => (none, { cm with misses := cm.misses + 1 })

-- CacheManager.set: store the value with the current naive-UTC timestamp.
def CacheManager.set {V : Type} (cm : CacheManager V) (key : String) (v : V) (now : Nat) :
    CacheManager V :=
  { cm with cache := (key, v, now) :: cacheErase cm.cache key }

-- Outcome of the single HTTP GET issued by _api_request when the cache misses.
inductive ApiNetResp (V : Type) where
  | ok (v : V)
  | httpErr (code : Nat)
  | netFail
deriving DecidableEq

-- SchoolDataCollector._api_request: consult the cache, otherwise perform the
-- request, caching a 200 body and returning None on any failure. The Bool
-- reports whether a network request was issued.
def apiRequest {V : Type} (cm : CacheManager V) (endpoint params : String) (now : Nat)
    (net : ApiNetResp V) : Option V × CacheManager V × Bool :=
  let key := get_cache_key endpoint params
  match cm.get key now with
  | (some v, cm1) => (some v, cm1, false)
  | (none, cm1) =>
    match net with
    | .ok v => (some v, cm1.set key v now, true)
    | .httpErr _ => (none, cm1, true)
    | .netFail => (none, cm1, true)

-- ==================== _check_max_api_limit (run_sync.py) ====================

structure MaxApiState where
  max_api_calls : Nat
  max_api_reset_time : Nat
deriving DecidableEq

structure MaxApiResult where
  state : MaxApiState
  waited : Bool
  wait_seconds : Nat
deriving DecidableEq

-- Body of _check_max_api_limit after the top-of-function window reset, with
-- the constructor defaults max_api_limit = 100 and a 60 second window. A wait
-- sleeps until the window deadline, so the clock reads the old deadline when
-- the state is rebuilt.
def checkMaxApiLimitCore (st1 : MaxApiState) (now : Nat) : MaxApiResult :=
  if 100 - 10 ≤ st1.max_api_calls then
    if 0 < st1.max_api_reset_time - now then
      ⟨⟨0 + 1, (now + (st1.max_api_reset_time - now)) + 60⟩, true,
        st1.max_api_reset_time - now⟩
    else ⟨⟨st1.max_api_calls + 1, st1.max_api_reset_time⟩, false, 0⟩
  else ⟨⟨st1.max_api_calls + 1, st1.max_api_reset_time⟩, false, 0⟩

-- SchoolDataCollector._check_max_api_limit: reset the window when the
-- deadline has passed, then throttle and count.
def checkMaxApiLimit (st : MaxApiState) (now : Nat) : MaxApiResult :=
  checkMaxApiLimitCore (if st.max_api_reset_time < now then ⟨0, now + 60⟩ else st) now

-- ==================== get_max_data (run_sync.py) ====================

structure MaxData where
  max_id : Option String
  max_link : String
deriving DecidableEq

-- One observable network interaction of get_max_data. `body` is the max_link
-- field of the stage-1 JSON, or the id scraped from the stage-2 HTML.
structure HttpResp where
  code : Nat
  retryAfter : Option Nat
  body : Option String
deriving DecidableEq

inductive NetEvent where
  | resp (r : HttpResp)
  | netFail
deriving DecidableEq

abbrev MaxCache := List (String × MaxData)

def maxCacheLookup : MaxCache → String → Option MaxData
  | [], _ => none
  | (k, v) :: rest, key => if k = key then some v else maxCacheLookup rest key

structure MaxLog where
  requests : Nat
  sleeps : List Nat
deriving DecidableEq

-- The retry loop of get_max_data. Each loop iteration consumes the next
-- network event for its stage-1 request and, when stage 1 succeeds, a second
-- event for the stage-2 fetch of the returned link. base_delay = 30.
def getMaxDataGo (maxRetries : Nat) (key : String) (retryCount : Nat)
    (script : List NetEvent) (cache : MaxCache) (requests : Nat) (sleeps : List Nat) :
    Option MaxData × MaxCache × MaxLog :=
  match script with
  | [] => (none, cache, ⟨requests, sleeps⟩)
  | ev :: rest =>
    if retryCount < maxRetries then
      match ev with
      | .netFail =>
        let rc := retryCount + 1
        let sleeps1 := if rc < maxRetries then sleeps ++ [30 * rc] else sleeps
        getMaxDataGo maxRetries key rc rest cache (requests + 1) sleeps1
      | .resp r =>
        if r.code = 429 then
          getMaxDataGo maxRetries key (retryCount + 1) rest cache (requests + 1)
            (sleeps ++ [r.retryAfter.getD 30])
        else if r.code ≠ 200 then (none, cache, ⟨requests + 1, sleeps⟩)
        else
          match r.body with
          | none => (none, cache, ⟨requests + 1, sleeps⟩)
          | some link =>
            match rest with
            | [] => (none, cache, ⟨requests + 1, sleeps ++ [2]⟩)
            | ev2 :: rest2 =>
              match ev2 with
              | .netFail => (none, cache, ⟨requests + 2, sleeps ++ [2]⟩)
              | .resp h =>
                if h.code = 200 then
                  (some ⟨h.body, link⟩, (key, ⟨h.body, link⟩) :: cache,
                    ⟨requests + 2, sleeps ++ [2]⟩)
                else if h.code = 429 then
                  getMaxDataGo maxRetries key (retryCount + 1) rest2 cache (requests + 2)
                    (sleeps ++ [2, h.retryAfter.getD 30])
                else (none, cache, ⟨requests + 2, sleeps ++ [2]⟩)
    else (none, cache, ⟨requests, sleeps⟩)

-- Key selection of get_max_data: staff_id wins over person_id, both falsy is
-- an error returned as None before any request.
def selIdKey (personId staffId : Option Nat) : Option String :=
  if natTruthy staffId then
    some ("max_data_staff_" ++ toString (staffId.getD 0))
  else if natTruthy personId then
    some ("max_data_person_" ++ toString (personId.getD 0))
  else none

-- SchoolDataCollector.get_max_data: per-run cache consulted before the
-- two-stage network protocol runs.
def getMaxData (cache : MaxCache) (script : List NetEvent)
    (personId staffId : Option Nat) (maxRetries : Nat) :
    Option MaxData × MaxCache × MaxLog :=
  match selIdKey personId staffId with
  | none => (none, cache, ⟨0, []⟩)
  | some key =>
    match maxCacheLookup cache key with
    | some cached => (some cached, cache, ⟨0, []⟩)
    | none => getMaxDataGo maxRetries key 0 script cache 0 []

-- ==================== Staff rows (shared/models.py) ====================

structure Staff where
  person_id : Nat
  user_id : Option Nat
  max_user_id : Option String
  name : Option String
  last_name : Option String
  first_name : Option String
  middle_name : Option String
  email : Option String
  phone : Option String
  type : Option String
  updated_at_api : Option Nat
  is_active : Bool
  deactivated_at : Option Nat
  last_seen_at : Option Nat
  created_at : Option Nat
  updated_at : Nat
  max_link_path : Option String
deriving DecidableEq

def pids (db : List Staff) : List Nat :=
  db.map Staff.person_id

-- session.query(Staff).filter_by(person_id=...).first()
def findStaff : List Staff → Nat → Option Staff
  | [], _ => none
  | r :: rest, pid => if r.person_id = pid then some r else findStaff rest pid

-- In-place mutation of the first row matching pid, mirroring the ORM update
-- of the single row returned by first().
def replaceFirst : List Staff → Nat → (Staff → Staff) → List Staff
  | [], _, _ => []
  | r :: rest, pid, f =>
    if r.person_id = pid then f r :: rest else r :: replaceFirst rest pid f

-- ==================== save_staff_from_api (run_sync.py) ====================

structure UserData where
  last_name : Option String
  first_name : Option String
  middle_name : Option String
  phone_number : Option String
  email : Option String
  email_ezd : Option String
deriving DecidableEq

-- One record of the teacher_profiles payload. updated_at carries the result
-- of the source's strptime of the API date (none when absent/unparseable);
-- the nested user dict defaults to all-None when the key is missing; type
-- keeps the absent / present-null / present-string distinction that the
-- update branch's get-with-default observes.
structure StaffData where
  id : Option Nat
  user_id : Option Nat
  name : PyStr
  user : UserData
  type : PyOptStr
  updated_at : Option Nat
  user_integration_id : Option Nat
deriving DecidableEq

-- The values save_staff_from_api extracts from a record before it touches the
-- database: validity guards, name split, contact normalisation and the
-- best-effort external-identity resolution.
structure StaffFields where
  staff_id : Nat
  user_id : Nat
  full_name : String
  last_name : Option String
  first_name : Option String
  middle_name : Option String
  phone : Option String
  email : Option String
  type : PyOptStr
  api_updated_at : Option Nat
  max_id : Option String
  max_link_path : Option String
deriving DecidableEq

def extractStaffFields (resolver : Nat → Option MaxData) (d : StaffData) :
    Option StaffFields :=
  match d.id with
  | none => none
  | some sid =>
    if sid = 0 then none
    else
      match d.user_id with
      | none => none
      | some uid =>
        if uid = 0 then none
        else
          let u := d.user
          let full_name := match d.name with | .pstr s => s | _ => ""
          let nameParts :=
            if !strTruthy u.last_name && full_name != "" then extract_name_parts full_name
            else (u.last_name, u.first_name, u.middle_name)
          let phone := normalize_phone u.phone_number
          let email0 := normalize_email u.email
          let email := match email0 with
            | none => normalize_email u.email_ezd
            | some e => some e
          let maxPair : Option String × Option String :=
            match d.user_integration_id with
            | some uiid =>
              if uiid ≠ 0 then
                match resolver uiid with
                | some md => (md.max_id, some md.max_link)
                | none => (none, none)
              else (none, none)
            | none => (none, none)
          some ⟨sid, uid, full_name, nameParts.1, nameParts.2.1, nameParts.2.2,
                phone, email, d.type, d.updated_at, maxPair.1, maxPair.2⟩

-- The Staff(...) constructor call of the create branch.
def createStaffRow (fl : StaffFields) (now : Nat) : Staff :=
  { person_id := fl.staff_id
    user_id := some fl.user_id
    max_user_id := fl.max_id
    name := some fl.full_name
    last_name := fl.last_name
    first_name := fl.first_name
    middle_name := fl.middle_name
    email := fl.email
    phone := fl.phone
    type := match fl.type with | .str t => some t | _ => none
    updated_at_api := fl.api_updated_at
    is_active := true
    deactivated_at := none
    last_seen_at := some now
    created_at := some now
    updated_at := now
    max_link_path := fl.max_link_path }

-- The field assignments of the update branch, lines 510-524 of run_sync.py.
def updateStaffRow (staff : Staff) (fl : StaffFields) (now : Nat) : Staff :=
  { staff with
    user_id := some fl.user_id
    name := if fl.full_name != "" then some fl.full_name else staff.name
    last_name := orKeep fl.last_name staff.last_name
    first_name := orKeep fl.first_name staff.first_name
    middle_name := orKeep fl.middle_name staff.middle_name
    email := orKeep fl.email staff.email
    phone := orKeep fl.phone staff.phone
    type := match fl.type with | .absent => staff.type | .null => none | .str t => some t
    updated_at_api := orKeepT fl.api_updated_at staff.updated_at_api
    is_active := true
    last_seen_at := some now
    deactivated_at := none
    max_user_id := fl.max_id
    max_link_path := fl.max_link_path
    updated_at := now }

-- save_staff_from_api: validity guards, then create or update the row found
-- by person_id. Returns the saved row's person_id, or none when skipped.
def saveStaffFromApi (resolver : Nat → Option MaxData) (db : List Staff)
    (d : StaffData) (now : Nat) : List Staff × Option Nat :=
  match extractStaffFields resolver d with
  | none => (db, none)
  | some fl =>
    match findStaff db fl.staff_id with
    | none => (db ++ [createStaffRow fl now], some fl.staff_id)
    | some _ => (replaceFirst db fl.staff_id (fun r => updateStaffRow r fl now), some fl.staff_id)

-- ==================== sync_all_staff (run_sync.py) ====================

-- A raw element of a fetched page: a dict record or any malformed value.
inductive ApiRecord where
  | malformed : ApiRecord
  | record (d : StaffData) : ApiRecord
deriving DecidableEq

structure SyncStats where
  api_ids : List Nat
  saved_ids : List Nat
  total_loaded : Nat
  no_user_id : Nat
  errors : Nat
  duplicates : Nat
  pages_fetched : Nat
deriving DecidableEq

def initStats : SyncStats :=
  ⟨[], [], 0, 0, 0, 0, 0⟩

-- Python set.add on a set represented as a duplicate-free list.
def insertSet (x : Nat) (s : List Nat) : List Nat :=
  if x ∈ s then s else s ++ [x]

-- The page_ids set collected before the records of a page are processed.
def pageIdSet (page : List ApiRecord) : List Nat :=
  page.foldl
    (fun acc r =>
      match r with
      | .record d =>
        match d.id with
        | some sid => if sid = 0 then acc else insertSet sid acc
        | none => acc
      | .malformed => acc)
    []

-- The per-record body of the sync_all_staff page loop: guards in source
-- order (shape, id, user_id, in-page duplicate, suspicious name), then save.
def processRecordCore (resolver : Nat → Option MaxData) (now : Nat) (db : List Staff)
    (stats : SyncStats) (pageIds : List Nat) : ApiRecord → List Staff × SyncStats × List Nat
  | .malformed => (db, stats, pageIds)
  | .record d =>
    match d.id with
    | none => (db, stats, pageIds)
    | some sid =>
      if sid = 0 then (db, stats, pageIds)
      else if !natTruthy d.user_id then
        (db, { stats with no_user_id := stats.no_user_id + 1 }, pageIds)
      else if sid ∈ pageIds then
        (db, { stats with duplicates := stats.duplicates + 1 }, pageIds)
      else if is_suspicious_name d.name then (db, stats, pageIds)
      else
        match saveStaffFromApi resolver db d now with
        | (db1, some pid) =>
          (db1,
           { stats with
             saved_ids := insertSet pid stats.saved_ids
             total_loaded := stats.total_loaded + 1 },
           pageIds ++ [sid])
        | (db1, none) => (db1, stats, pageIds)

def processRecord (resolver : Nat → Option MaxData) (now : Nat)
    (st : List Staff × SyncStats × List Nat) (r : ApiRecord) :
    List Staff × SyncStats × List Nat :=
  processRecordCore resolver now st.1 st.2.1 st.2.2 r

-- The api_ids accumulation done at the top of each page iteration.
def withPageIds (stats : SyncStats) (page : List ApiRecord) : SyncStats :=
  { stats with api_ids := (pageIdSet page).foldl (fun a i => insertSet i a) stats.api_ids }

-- The set-difference duplicate count of a page.
def withPageDup (stats : SyncStats) (page : List ApiRecord) : SyncStats :=
  if (pageIdSet page).length < page.length then
    { stats with duplicates := stats.duplicates + (page.length - (pageIdSet page).length) }
  else stats

-- One iteration of the page loop: page-level id statistics and duplicate
-- count, then the record loop with a fresh page_processed_ids set.
def processPage (resolver : Nat → Option MaxData) (now : Nat) (db : List Staff)
    (stats : SyncStats) (page : List ApiRecord) : List Staff × SyncStats :=
  ((page.foldl (processRecord resolver now) (db, withPageDup (withPageIds stats page) page, [])).1,
   (page.foldl (processRecord resolver now) (db, withPageDup (withPageIds stats page) page, [])).2.1)

-- The while-loop of sync_all_staff over the successive successful page
-- fetches. An exhausted or empty fetch breaks; a page of fewer than 10
-- records is the last one. pages_fetched instruments the loop counter.
def syncPages (resolver : Nat → Option MaxData) (now : Nat) :
    List (List ApiRecord) → List Staff → SyncStats → List Staff × SyncStats
  | [], db, stats => (db, stats)
  | page :: rest, db, stats =>
    if page.isEmpty then (db, stats)
    else
      let res := processPage resolver now db stats page
      let stats1 := { res.2 with pages_fetched := res.2.pages_fetched + 1 }
      if page.length < 10 then (res.1, stats1)
      else syncPages resolver now rest res.1 stats1

-- The bulk-update dict shared by the two deactivation passes:
-- is_active=False, deactivated_at=now, updated_at=now.
def deactStamp (now : Nat) (r : Staff) : Staff :=
  { r with is_active := false, deactivated_at := some now, updated_at := now }

-- Row-level effect of the deactivate_missing_staff bulk update.
def deactPass (activeIds : List Nat) (now : Nat) (r : Staff) : Staff :=
  if r.is_active = true ∧ r.person_id ∉ activeIds then deactStamp now r else r

-- Row-level effect of the clean_staff_without_user_id bulk update.
def cleanPass (now : Nat) (r : Staff) : Staff :=
  if r.is_active = true ∧ r.user_id = none then deactStamp now r else r

-- deactivate_missing_staff: nothing happens for an empty id set; otherwise
-- every active row whose person_id is outside the set is bulk-deactivated.
def deactivateMissingStaff (activeIds : List Nat) (db : List Staff) (now : Nat) :
    List Staff × Nat :=
  if activeIds.isEmpty then (db, 0)
  else
    (db.map (deactPass activeIds now),
     db.countP (fun r => decide (r.is_active = true ∧ r.person_id ∉ activeIds)))

-- clean_staff_without_user_id: deactivate every active row whose user_id is
-- SQL NULL.
def cleanStaffWithoutUserId (db : List Staff) (now : Nat) : List Staff × Nat :=
  (db.map (cleanPass now),
   db.countP (fun r => decide (r.is_active = true ∧ r.user_id = none)))

-- sync_all_staff: the page loop, then the deactivation pass over the ids
-- saved in this run, then the user_id cleanup pass. Returns the final table,
-- the statistics, and the two pass counts.
def syncAllStaff (resolver : Nat → Option MaxData) (pages : List (List ApiRecord))
    (db : List Staff) (now : Nat) : List Staff × SyncStats × Nat × Nat :=
  let res := syncPages resolver now pages db initStats
  let deact := deactivateMissingStaff res.2.saved_ids res.1 now
  let clean := cleanStaffWithoutUserId deact.1 now
  (clean.1, res.2, deact.2, clean.2)

-- Invariant carried through the page loop of sync_all_staff: person_ids are
-- unique (the unique index ix_staff_person_id), every saved id has a row, all
-- rows of saved ids are active with deactivated_at cleared and a user_id, and
-- rows whose id was never saved are untouched copies of the initial table.
def StaffDbInv (db0 : List Staff) (saved : List Nat) (db : List Staff) : Prop :=
  (pids db).Nodup ∧
  (∀ pid ∈ saved, ∃ r ∈ db, r.person_id = pid) ∧
  (∀ r ∈ db, r.person_id ∈ saved →
    r.is_active = true ∧ r.deactivated_at = none ∧ r.user_id ≠ none) ∧
  (∀ r0 ∈ db0, r0.person_id ∉ saved → r0 ∈ db)

-- ==================== link_parent_to_student (run_sync.py) ====================

-- The parent_student join table as its list of (parent_id, student_id) rows.
def linkParentToStudent (table : List (Nat × Nat)) (parentId studentId : Nat) :
    List (Nat × Nat) × Bool :=
  if (parentId, studentId) ∈ table then (table, false)
  else (table ++ [(parentId, studentId)], true)

-- ==================== Concrete inputs used in the proofs ====================

def blankStaff : Staff :=
  { person_id := 0, user_id := none, max_user_id := none, name := none,
    last_name := none, first_name := none, middle_name := none, email := none,
    phone := none, type := none, updated_at_api := none, is_active := false,
    deactivated_at := none, last_seen_at := none, created_at := none,
    updated_at := 0, max_link_path := none }

def emptyUser : UserData := ⟨none, none, none, none, none, none⟩

def demoRecord (i : Nat) (uid : Option Nat) : ApiRecord :=
  .record ⟨some i, uid, .pstr "Ivanov Ivan", emptyUser, .absent, none, none⟩

def demoPage1 : List ApiRecord :=
  [demoRecord 1 (some 101), demoRecord 2 (some 102), demoRecord 3 (some 103),
   demoRecord 4 (some 104), demoRecord 5 (some 105), demoRecord 6 (some 106),
   demoRecord 7 (some 107), demoRecord 8 (some 108), demoRecord 9 none,
   demoRecord 10 none]

def demoPage2 : List ApiRecord :=
  [demoRecord 11 (some 111), demoRecord 12 (some 112), demoRecord 13 (some 113),
   demoRecord 14 (some 114)]

def demoPage3 : List ApiRecord :=
  [demoRecord 999 (some 999)]

-- A previously active row that an empty fetch should, per the claim, end up
-- deactivating.
def activeRow : Staff :=
  { blankStaff with person_id := 1, user_id := some 5, is_active := true }

-- A previously inactive row whose id is fetched again by the witness run.
def dormantRow : Staff :=
  { blankStaff with person_id := 2, user_id := some 6, is_active := false,
                    deactivated_at := some 3 }

-- An existing row holding resolved external-identity fields and a populated
-- type.
def richRow : Staff :=
  { blankStaff with person_id := 1, user_id := some 2, max_user_id := some "777",
                    max_link_path := some "lnk", is_active := false,
                    deactivated_at := some 3, email := some "a@b.c",
                    type := some "teacher" }

-- A sparse re-sighting of richRow's person: no name, no contacts, an
-- explicit null under the type key, and no user_integration_id, so the
-- external identity stays unresolved.
def sparseData : StaffData := ⟨some 1, some 2, .pstr "", emptyUser, .null, none, none⟩

-- A fuller record for the person of richRow, used by the update-semantics
-- witness.
def fullerData : StaffData :=
  ⟨some 1, some 5, .pstr "Ivanov Ivan", emptyUser, .absent, none, none⟩

-- The extraction result of fullerData.
def fullerFields : StaffFields :=
  ⟨1, 5, "Ivanov Ivan", some "Ivanov", some "Ivan", none, none, none, .absent, none,
   none, none⟩

-- ==================== Helper lemmas ====================

theorem mem_insertSet {x y : Nat} {s : List Nat} :
    x ∈ insertSet y s ↔ x = y ∨ x ∈ s := by
  by_cases hy : y ∈ s
  · rw [insertSet, if_pos hy]
    constructor
    · exact Or.inr
    · rintro (rfl | h)
      · exact hy
      · exact h
  · rw [insertSet, if_neg hy, List.mem_append, List.mem_singleton]
    tauto

theorem findStaff_some {db : List Staff} {pid : Nat} {st : Staff}
    (h : findStaff db pid = some st) : st ∈ db ∧ st.person_id = pid := by
  induction db with
  | nil => simp [findStaff] at h
  | cons a l ih =>
    by_cases hc : a.person_id = pid
    · rw [findStaff, if_pos hc] at h
      injection h with h1
      subst h1
      exact ⟨List.mem_cons_self a l, hc⟩
    · rw [findStaff, if_neg hc] at h
      exact ⟨List.mem_cons_of_mem a (ih h).1, (ih h).2⟩

theorem findStaff_none {db : List Staff} {pid : Nat}
    (h : findStaff db pid = none) : ∀ r ∈ db, r.person_id ≠ pid := by
  induction db with
  | nil => intro r hr; cases hr
  | cons a l ih =>
    by_cases hc : a.person_id = pid
    · rw [findStaff, if_pos hc] at h
      cases h
    · rw [findStaff, if_neg hc] at h
      intro r hr
      rcases List.mem_cons.mp hr with rfl | hr
      · exact hc
      · exact ih h r hr

theorem mem_replaceFirst {db : List Staff} {pid : Nat} {f : Staff → Staff} {r' : Staff}
    (h : r' ∈ replaceFirst db pid f) :
    r' ∈ db ∨ ∃ r ∈ db, r.person_id = pid ∧ r' = f r := by
  induction db with
  | nil => cases h
  | cons a l ih =>
    by_cases hc : a.person_id = pid
    · rw [replaceFirst, if_pos hc] at h
      rcases List.mem_cons.mp h with rfl | h
      · exact Or.inr ⟨a, List.mem_cons_self a l, hc, rfl⟩
      · exact Or.inl (List.mem_cons_of_mem a h)
    · rw [replaceFirst, if_neg hc] at h
      rcases List.mem_cons.mp h with rfl | h
      · exact Or.inl (List.mem_cons_self _ _)
      · rcases ih h with h | ⟨r, hr, hp, hrf⟩
        · exact Or.inl (List.mem_cons_of_mem a h)
        · exact Or.inr ⟨r, List.mem_cons_of_mem a hr, hp, hrf⟩

theorem replaceFirst_mem_of_ne {db : List Staff} {pid : Nat} {f : Staff → Staff} {r : Staff}
    (h : r ∈ db) (hne : r.person_id ≠ pid) : r ∈ replaceFirst db pid f := by
  induction db with
  | nil => cases h
  | cons a l ih =>
    by_cases hc : a.person_id = pid
    · rw [replaceFirst, if_pos hc]
      rcases List.mem_cons.mp h with rfl | h
      · exact absurd hc hne
      · exact List.mem_cons_of_mem _ h
    · rw [replaceFirst, if_neg hc]
      rcases List.mem_cons.mp h with rfl | h
      · exact List.mem_cons_self _ _
      · exact List.mem_cons_of_mem _ (ih h)

theorem pids_replaceFirst {db : List Staff} {pid : Nat} {f : Staff → Staff}
    (hf : ∀ r, (f r).person_id = r.person_id) :
    pids (replaceFirst db pid f) = pids db := by
  induction db with
  | nil => rfl
  | cons a l ih =>
    by_cases hc : a.person_id = pid
    · rw [replaceFirst, if_pos hc]
      simp [pids, hf]
    · rw [replaceFirst, if_neg hc]
      simp only [pids, List.map_cons] at ih ⊢
      rw [ih]

theorem replaceFirst_target {db : List Staff} {pid : Nat} {f : Staff → Staff} {st : Staff}
    (hnd : (pids db).Nodup) (hf : ∀ r, (f r).person_id = r.person_id)
    (hfind : findStaff db pid = some st) :
    ∀ r' ∈ replaceFirst db pid f, r'.person_id = pid → r' = f st := by
  induction db with
  | nil => simp [findStaff] at hfind
  | cons a l ih =>
    rw [pids, List.map_cons, List.nodup_cons] at hnd
    by_cases hc : a.person_id = pid
    · rw [findStaff, if_pos hc] at hfind
      injection hfind with h1
      subst h1
      rw [replaceFirst, if_pos hc]
      intro r' hr' hp
      rcases List.mem_cons.mp hr' with rfl | hr'
      · rfl
      · have hmem : pid ∈ List.map Staff.person_id l := by
          rw [← hp]
          exact List.mem_map_of_mem Staff.person_id hr'
        rw [hc] at hnd
        exact absurd hmem hnd.1
    · rw [findStaff, if_neg hc] at hfind
      rw [replaceFirst, if_neg hc]
      intro r' hr' hp
      rcases List.mem_cons.mp hr' with rfl | hr'
      · exact absurd hp hc
      · exact ih hnd.2 hfind r' hr' hp

theorem replaceFirst_target_mem {db : List Staff} {pid : Nat} {f : Staff → Staff} {st : Staff}
    (hfind : findStaff db pid = some st) : f st ∈ replaceFirst db pid f := by
  induction db with
  | nil => simp [findStaff] at hfind
  | cons a l ih =>
    by_cases hc : a.person_id = pid
    · rw [findStaff, if_pos hc] at hfind
      injection hfind with h1
      subst h1
      rw [replaceFirst, if_pos hc]
      exact List.mem_cons_self _ _
    · rw [findStaff, if_neg hc] at hfind
      rw [replaceFirst, if_neg hc]
      exact List.mem_cons_of_mem _ (ih hfind)

theorem pid_unique {db : List Staff} (hnd : (pids db).Nodup) :
    ∀ r1 ∈ db, ∀ r2 ∈ db, r1.person_id = r2.person_id → r1 = r2 := by
  induction db with
  | nil => intro r1 h1; cases h1
  | cons a l ih =>
    rw [pids, List.map_cons, List.nodup_cons] at hnd
    intro r1 h1 r2 h2 he
    rcases List.mem_cons.mp h1 with e1 | m1
    · rcases List.mem_cons.mp h2 with e2 | m2
      · rw [e1, e2]
      · have hm : a.person_id ∈ List.map Staff.person_id l := by
          rw [← e1, he]
          exact List.mem_map_of_mem Staff.person_id m2
        exact absurd hm hnd.1
    · rcases List.mem_cons.mp h2 with e2 | m2
      · have hm : a.person_id ∈ List.map Staff.person_id l := by
          rw [← e2, ← he]
          exact List.mem_map_of_mem Staff.person_id m1
        exact absurd hm hnd.1
      · exact ih hnd.2 r1 m1 r2 m2 he

theorem updateStaffRow_person_id (r : Staff) (fl : StaffFields) (now : Nat) :
    (updateStaffRow r fl now).person_id = r.person_id := rfl

theorem updateStaffRow_active (r : Staff) (fl : StaffFields) (now : Nat) :
    (updateStaffRow r fl now).is_active = true ∧
    (updateStaffRow r fl now).deactivated_at = none ∧
    (updateStaffRow r fl now).user_id = some fl.user_id := ⟨rfl, rfl, rfl⟩

theorem createStaffRow_person_id (fl : StaffFields) (now : Nat) :
    (createStaffRow fl now).person_id = fl.staff_id := rfl

theorem createStaffRow_active (fl : StaffFields) (now : Nat) :
    (createStaffRow fl now).is_active = true ∧
    (createStaffRow fl now).deactivated_at = none ∧
    (createStaffRow fl now).user_id = some fl.user_id := ⟨rfl, rfl, rfl⟩

theorem save_eq {resolver : Nat → Option MaxData} {db db' : List Staff}
    {d : StaffData} {now pid : Nat}
    (h : saveStaffFromApi resolver db d now = (db', some pid)) :
    ∃ fl, extractStaffFields resolver d = some fl ∧ fl.staff_id = pid ∧
      ((findStaff db pid = none ∧ db' = db ++ [createStaffRow fl now]) ∨
       (∃ st, findStaff db pid = some st ∧
          db' = replaceFirst db pid (fun r => updateStaffRow r fl now))) := by
  unfold saveStaffFromApi at h
  split at h
  · injection h with h1 h2
    cases h2
  · rename_i fl hx
    split at h
    · rename_i hf
      injection h with h1 h2
      injection h2 with h2
      subst h2
      exact ⟨fl, hx, rfl, Or.inl ⟨hf, h1.symm⟩⟩
    · rename_i st hf
      injection h with h1 h2
      injection h2 with h2
      subst h2
      exact ⟨fl, hx, rfl, Or.inr ⟨st, hf, h1.symm⟩⟩

theorem save_none {resolver : Nat → Option MaxData} {db db' : List Staff}
    {d : StaffData} {now : Nat}
    (h : saveStaffFromApi resolver db d now = (db', none)) : db' = db := by
  unfold saveStaffFromApi at h
  split at h
  · injection h with h1 h2
    exact h1.symm
  · split at h
    · injection h with h1 h2
      cases h2
    · injection h with h1 h2
      cases h2

theorem save_inv {resolver : Nat → Option MaxData} {db0 db db' : List Staff}
    {d : StaffData} {now pid : Nat} {saved : List Nat}
    (hinv : StaffDbInv db0 saved db)
    (h : saveStaffFromApi resolver db d now = (db', some pid)) :
    StaffDbInv db0 (insertSet pid saved) db' := by
  obtain ⟨hnd, hex, hact, hframe⟩ := hinv
  obtain ⟨fl, hfl, hpid, hcase⟩ := save_eq h
  rcases hcase with ⟨hfind, rfl⟩ | ⟨st, hfind, rfl⟩
  · -- create branch
    have hnotin : pid ∉ List.map Staff.person_id db := by
      intro hmem
      rcases List.mem_map.mp hmem with ⟨r, hr, hrp⟩
      exact findStaff_none hfind r hr hrp
    refine ⟨?_, ?_, ?_, ?_⟩
    · rw [pids, List.map_append]
      refine List.Nodup.append hnd (by simp) ?_
      intro x hx hx1
      rw [List.map_singleton, List.mem_singleton] at hx1
      rw [createStaffRow_person_id, hpid] at hx1
      rw [pids] at hnd
      exact hnotin (hx1 ▸ hx)
    · intro q hq
      rcases mem_insertSet.mp hq with rfl | hq
      · refine ⟨createStaffRow fl now, List.mem_append_right db (List.mem_singleton.mpr rfl), ?_⟩
        rw [createStaffRow_person_id, hpid]
      · obtain ⟨r, hr, hrp⟩ := hex q hq
        exact ⟨r, List.mem_append_left _ hr, hrp⟩
    · intro r hr hq
      rcases List.mem_append.mp hr with hr | hr
      · rcases mem_insertSet.mp hq with hq | hq
        · exact absurd hq (findStaff_none hfind r hr)
        · exact hact r hr hq
      · rw [List.mem_singleton] at hr
        subst hr
        refine ⟨rfl, rfl, ?_⟩
        intro hcon
        cases hcon
    · intro r0 hr0 hq
      have hq1 : r0.person_id ∉ saved := fun hx => hq (mem_insertSet.mpr (Or.inr hx))
      exact List.mem_append_left _ (hframe r0 hr0 hq1)
  · -- update branch
    have hfp : ∀ r : Staff, (updateStaffRow r fl now).person_id = r.person_id :=
      fun r => rfl
    have hst := findStaff_some hfind
    refine ⟨?_, ?_, ?_, ?_⟩
    · rw [pids_replaceFirst hfp]
      exact hnd
    · intro q hq
      rcases mem_insertSet.mp hq with rfl | hq
      · refine ⟨updateStaffRow st fl now, replaceFirst_target_mem hfind, ?_⟩
        rw [hfp, hst.2]
      · obtain ⟨r, hr, hrp⟩ := hex q hq
        by_cases hrq : r.person_id = pid
        · refine ⟨updateStaffRow st fl now, replaceFirst_target_mem hfind, ?_⟩
          rw [hfp, hst.2, ← hrq, hrp]
        · exact ⟨r, replaceFirst_mem_of_ne hr hrq, hrp⟩
    · intro r hr hq
      by_cases hrq : r.person_id = pid
      · have := replaceFirst_target hnd hfp hfind r hr hrq
        subst this
        refine ⟨rfl, rfl, ?_⟩
        intro hcon
        cases hcon
      · have hq1 : r.person_id ∈ saved := by
          rcases mem_insertSet.mp hq with hq | hq
          · exact absurd hq hrq
          · exact hq
        rcases mem_replaceFirst hr with hr1 | ⟨r1, hr1, hp1, hrf1⟩
        · exact hact r hr1 hq1
        · rw [hrf1, hfp] at hrq
          exact absurd hp1 hrq
    · intro r0 hr0 hq
      have hq1 : r0.person_id ∉ saved := fun hx => hq (mem_insertSet.mpr (Or.inr hx))
      have hq2 : r0.person_id ≠ pid := fun hx => hq (mem_insertSet.mpr (Or.inl hx))
      exact replaceFirst_mem_of_ne (hframe r0 hr0 hq1) hq2

theorem processRecord_inv {resolver : Nat → Option MaxData} {now : Nat}
    {db : List Staff} {stats : SyncStats} {pageIds : List Nat} {r : ApiRecord}
    {db0 : List Staff} (hinv : StaffDbInv db0 stats.saved_ids db) :
    StaffDbInv db0 (processRecord resolver now (db, stats, pageIds) r).2.1.saved_ids
      (processRecord resolver now (db, stats, pageIds) r).1 := by
  show StaffDbInv db0 (processRecordCore resolver now db stats pageIds r).2.1.saved_ids
    (processRecordCore resolver now db stats pageIds r).1
  unfold processRecordCore
  split
  · exact hinv
  · split
    · exact hinv
    · split
      · exact hinv
      · split
        · exact hinv
        · split
          · exact hinv
          · split
            · exact hinv
            · split
              · rename_i db1 pid hsave
                exact save_inv hinv hsave
              · rename_i db1 hsave
                have h1 := save_none hsave
                subst h1
                exact hinv

theorem foldRecords_inv {resolver : Nat → Option MaxData} {now : Nat} {db0 : List Staff} :
    ∀ (page : List ApiRecord) (db : List Staff) (stats : SyncStats) (pageIds : List Nat),
      StaffDbInv db0 stats.saved_ids db →
      StaffDbInv db0
        (page.foldl (processRecord resolver now) (db, stats, pageIds)).2.1.saved_ids
        (page.foldl (processRecord resolver now) (db, stats, pageIds)).1 := by
  intro page
  induction page with
  | nil => intro db stats pageIds hinv; simpa using hinv
  | cons r rs ih =>
    intro db stats pageIds hinv
    rw [List.foldl_cons]
    rcases hstep : processRecord resolver now (db, stats, pageIds) r with ⟨db1, stats1, pg1⟩
    have h1 := @processRecord_inv resolver now db stats pageIds r db0 hinv
    rw [hstep] at h1
    exact ih db1 stats1 pg1 h1

theorem withPageDup_saved (stats : SyncStats) (page : List ApiRecord) :
    (withPageDup (withPageIds stats page) page).saved_ids = stats.saved_ids := by
  unfold withPageDup withPageIds
  split <;> rfl

theorem processPage_inv {resolver : Nat → Option MaxData} {now : Nat}
    {db db0 : List Staff} {stats : SyncStats} {page : List ApiRecord}
    (hinv : StaffDbInv db0 stats.saved_ids db) :
    StaffDbInv db0 (processPage resolver now db stats page).2.saved_ids
      (processPage resolver now db stats page).1 := by
  have h1 : StaffDbInv db0 (withPageDup (withPageIds stats page) page).saved_ids db := by
    rw [withPageDup_saved]
    exact hinv
  exact foldRecords_inv page db _ [] h1

theorem syncPages_inv {resolver : Nat → Option MaxData} {now : Nat} {db0 : List Staff} :
    ∀ (pages : List (List ApiRecord)) (db : List Staff) (stats : SyncStats),
      StaffDbInv db0 stats.saved_ids db →
      StaffDbInv db0 (syncPages resolver now pages db stats).2.saved_ids
        (syncPages resolver now pages db stats).1 := by
  intro pages
  induction pages with
  | nil => intro db stats h; simpa using h
  | cons page rest ih =>
    intro db stats h
    rw [syncPages]
    split
    · exact h
    · have hp := @processPage_inv resolver now db db0 stats page h
      split
      · exact hp
      · exact ih _ _ hp

theorem deactPass_person_id (saved : List Nat) (now : Nat) (r : Staff) :
    (deactPass saved now r).person_id = r.person_id := by
  unfold deactPass
  split <;> rfl

theorem cleanPass_person_id (now : Nat) (r : Staff) :
    (cleanPass now r).person_id = r.person_id := by
  unfold cleanPass
  split <;> rfl

theorem deactPass_in_saved {saved : List Nat} {now : Nat} {r : Staff}
    (h : r.person_id ∈ saved) : deactPass saved now r = r := by
  unfold deactPass
  rw [if_neg]
  exact fun hc => hc.2 h

theorem deactPass_out_active {saved : List Nat} {now : Nat} {r : Staff}
    (ha : r.is_active = true) (h : r.person_id ∉ saved) :
    deactPass saved now r = deactStamp now r := by
  unfold deactPass
  rw [if_pos ⟨ha, h⟩]

theorem deactPass_inactive {saved : List Nat} {now : Nat} {r : Staff}
    (ha : r.is_active = false) : deactPass saved now r = r := by
  unfold deactPass
  rw [if_neg]
  intro hc
  rw [ha] at hc
  cases hc.1

theorem cleanPass_user {now : Nat} {r : Staff} (h : r.user_id ≠ none) :
    cleanPass now r = r := by
  unfold cleanPass
  rw [if_neg]
  exact fun hc => h hc.2

theorem cleanPass_inactive {now : Nat} {r : Staff} (ha : r.is_active = false) :
    cleanPass now r = r := by
  unfold cleanPass
  rw [if_neg]
  intro hc
  rw [ha] at hc
  cases hc.1

theorem final_passes {db0 db1 : List Staff} {saved : List Nat} {now : Nat}
    (hinv : StaffDbInv db0 saved db1) (hne : saved ≠ []) :
    (∀ r ∈ (cleanStaffWithoutUserId (deactivateMissingStaff saved db1 now).1 now).1,
        (r.is_active = true ↔ r.person_id ∈ saved)) ∧
    (∀ r ∈ (cleanStaffWithoutUserId (deactivateMissingStaff saved db1 now).1 now).1,
        r.person_id ∈ saved → r.is_active = true ∧ r.deactivated_at = none) ∧
    (∀ pid ∈ saved, ∃ r ∈ (cleanStaffWithoutUserId (deactivateMissingStaff saved db1 now).1 now).1,
        r.person_id = pid) ∧
    (∀ r0 ∈ db0, r0.is_active = true → r0.person_id ∉ saved →
       ∀ r ∈ (cleanStaffWithoutUserId (deactivateMissingStaff saved db1 now).1 now).1,
         r.person_id = r0.person_id → r.is_active = false ∧ r.deactivated_at = some now) := by
  obtain ⟨hnd, hex, hact, hframe⟩ := hinv
  have hDne : saved.isEmpty = false := by
    cases saved with
    | nil => exact absurd rfl hne
    | cons a l => rfl
  have hdeq : (deactivateMissingStaff saved db1 now).1 = db1.map (deactPass saved now) := by
    unfold deactivateMissingStaff
    rw [hDne]
    rfl
  have hdb3 : (cleanStaffWithoutUserId (deactivateMissingStaff saved db1 now).1 now).1
      = db1.map (fun r1 => cleanPass now (deactPass saved now r1)) := by
    unfold cleanStaffWithoutUserId
    rw [hdeq, List.map_map]
    rfl
  have hp : ∀ r1 : Staff, (cleanPass now (deactPass saved now r1)).person_id = r1.person_id := by
    intro r1
    rw [cleanPass_person_id, deactPass_person_id]
  have hsame : ∀ r1 ∈ db1, r1.person_id ∈ saved →
      cleanPass now (deactPass saved now r1) = r1 := by
    intro r1 h1 hs
    obtain ⟨ha, hd, hu⟩ := hact r1 h1 hs
    rw [deactPass_in_saved hs, cleanPass_user hu]
  have hout : ∀ r1 : Staff, r1.person_id ∉ saved →
      (cleanPass now (deactPass saved now r1)).is_active = false ∧
      (r1.is_active = true → cleanPass now (deactPass saved now r1) = deactStamp now r1) ∧
      (r1.is_active = false → cleanPass now (deactPass saved now r1) = r1) := by
    intro r1 hs
    cases hae : r1.is_active with
    | false =>
      rw [deactPass_inactive hae, cleanPass_inactive hae]
      refine ⟨hae, fun hc => ?_, fun _ => rfl⟩
      exact absurd hc (by decide)
    | true =>
      rw [deactPass_out_active hae hs,
        cleanPass_inactive (show (deactStamp now r1).is_active = false from rfl)]
      refine ⟨rfl, fun _ => rfl, fun hc => ?_⟩
      exact absurd hc (by decide)
  refine ⟨?_, ?_, ?_, ?_⟩
  · intro r hr
    rw [hdb3] at hr
    rcases List.mem_map.mp hr with ⟨r1, h1, rfl⟩
    by_cases hs : r1.person_id ∈ saved
    · rw [hsame r1 h1 hs]
      obtain ⟨ha, hd, hu⟩ := hact r1 h1 hs
      constructor
      · exact fun _ => hs
      · exact fun _ => ha
    · rw [hp]
      constructor
      · intro hc
        rw [(hout r1 hs).1] at hc
        cases hc
      · exact fun hc => absurd hc hs
  · intro r hr hs
    rw [hdb3] at hr
    rcases List.mem_map.mp hr with ⟨r1, h1, rfl⟩
    rw [hp] at hs
    rw [hsame r1 h1 hs]
    obtain ⟨ha, hd, hu⟩ := hact r1 h1 hs
    exact ⟨ha, hd⟩
  · intro pid hs
    obtain ⟨r1, h1, hrp⟩ := hex pid hs
    refine ⟨cleanPass now (deactPass saved now r1), ?_, ?_⟩
    · rw [hdb3]
      exact List.mem_map_of_mem _ h1
    · rw [hp, hrp]
  · intro r0 hr0 ha0 hs0 r hr hpe
    rw [hdb3] at hr
    rcases List.mem_map.mp hr with ⟨r1, h1, rfl⟩
    rw [hp] at hpe
    have hr0m : r0 ∈ db1 := hframe r0 hr0 hs0
    have he1 : r1 = r0 := pid_unique hnd r1 h1 r0 hr0m hpe
    subst he1
    rw [(hout r1 hs0).2.1 ha0]
    exact ⟨rfl, rfl⟩

/-- Claim C1, amended: after a completed sync_all_staff run whose set of saved
remote ids is non-empty (and over a table whose person_ids are unique, as the
unique index guarantees), the active Staff rows are exactly the rows of the
saved ids: every row is active iff its person_id was saved; rows of saved ids
end active with deactivated_at cleared; every saved id has a row; and every
previously active row whose id was not saved ends inactive with
deactivated_at set. The original claim also demanded this for a run whose
saved set is empty, which the code's early return contradicts (see the
counterexample). -/
theorem syncAllStaff_reconciliation (resolver : Nat → Option MaxData)
    (pages : List (List ApiRecord)) (db : List Staff) (now : Nat)
    (hnd : (pids db).Nodup)
    (hne : (syncAllStaff resolver pages db now).2.1.saved_ids ≠ []) :
    (∀ r ∈ (syncAllStaff resolver pages db now).1,
        (r.is_active = true ↔
          r.person_id ∈ (syncAllStaff resolver pages db now).2.1.saved_ids)) ∧
    (∀ r ∈ (syncAllStaff resolver pages db now).1,
        r.person_id ∈ (syncAllStaff resolver pages db now).2.1.saved_ids →
        r.is_active = true ∧ r.deactivated_at = none) ∧
    (∀ pid ∈ (syncAllStaff resolver pages db now).2.1.saved_ids,
        ∃ r ∈ (syncAllStaff resolver pages db now).1, r.person_id = pid) ∧
    (∀ r0 ∈ db, r0.is_active = true →
        r0.person_id ∉ (syncAllStaff resolver pages db now).2.1.saved_ids →
        ∀ r ∈ (syncAllStaff resolver pages db now).1, r.person_id = r0.person_id →
          r.is_active = false ∧ r.deactivated_at = some now) := by
  have hinv0 : StaffDbInv db [] db := by
    refine ⟨hnd, ?_, ?_, ?_⟩
    · intro pid hp
      cases hp
    · intro r hr hp
      cases hp
    · intro r0 hr0 _
      exact hr0
  have hinv := @syncPages_inv resolver now db pages db initStats hinv0
  have hne1 : (syncPages resolver now pages db initStats).2.saved_ids ≠ [] := hne
  exact final_passes hinv hne1

/-- Claim C1, counterexample to the original claim: with one previously active
row and a fetch whose first page is empty, the saved set is empty,
deactivate_missing_staff returns immediately, and the row stays active with
deactivated_at clear — it does not end up inactive as the claim demands for
runs with an empty current set. -/
theorem syncAllStaff_empty_fetch_keeps_active :
    (syncAllStaff (fun _ => none) [[]] [activeRow] 0).2.1.saved_ids = [] ∧
    (syncAllStaff (fun _ => none) [[]] [activeRow] 0).1 = [activeRow] ∧
    activeRow.is_active = true ∧ activeRow.deactivated_at = none := by
  decide

/-- Claim C1, witness: a run over the table [activeRow, dormantRow] fetching
only person 2 saves a non-empty id set; applying the reconciliation theorem,
the previously active row of person 1 ends deactivated. -/
theorem syncAllStaff_reconciliation_witness :
    (pids [activeRow, dormantRow]).Nodup ∧
    (syncAllStaff (fun _ => none) [[demoRecord 2 (some 102)]]
        [activeRow, dormantRow] 7).2.1.saved_ids ≠ [] ∧
    (deactStamp 7 activeRow).is_active = false ∧
    (deactStamp 7 activeRow).deactivated_at = some 7 := by
  have h := syncAllStaff_reconciliation (fun _ => none) [[demoRecord 2 (some 102)]]
    [activeRow, dormantRow] 7 (by decide) (by decide)
  have h4 := h.2.2.2 activeRow (by decide) (by decide) (by decide)
    (deactStamp 7 activeRow) (by decide) (by decide)
  exact ⟨by decide, by decide, h4.1, h4.2⟩

theorem orKeep_ne_none {new old : Option String} (h : old ≠ none) :
    orKeep new old ≠ none := by
  unfold orKeep
  split
  · rename_i hs
    cases new with
    | none => simp [strTruthy] at hs
    | some s => exact fun hc => by cases hc
  · exact h

/-- Claim C2, amended: in the update branch of save_staff_from_api, is_active
is unconditionally set to true and deactivated_at unconditionally cleared; the
data fields name, last_name, first_name, middle_name, email, phone and
updated_at_api are overwritten only when the incoming value is non-empty and
kept otherwise (so a populated one never regresses to empty) — but type is
read with dict.get's default, so it is overwritten by any value present under
the key, even an empty string or an explicit null (which wipes a populated
type), and kept only when the key is absent; and the external-identity fields
max_user_id and max_link_path are overwritten unconditionally with the
current resolution result, and so can regress to empty on a sparse or
unresolved payload (see the counterexample). -/
theorem saveStaff_update_fields (resolver : Nat → Option MaxData)
    (db : List Staff) (d : StaffData) (now : Nat) (fl : StaffFields) (st : Staff)
    (hfl : extractStaffFields resolver d = some fl)
    (hfind : findStaff db fl.staff_id = some st)
    (hnd : (pids db).Nodup) :
    ∀ r ∈ (saveStaffFromApi resolver db d now).1, r.person_id = fl.staff_id →
      r.is_active = true ∧
      r.deactivated_at = none ∧
      r.max_user_id = fl.max_id ∧
      r.max_link_path = fl.max_link_path ∧
      r.user_id = some fl.user_id ∧
      (fl.full_name ≠ "" → r.name = some fl.full_name) ∧
      (fl.full_name = "" → r.name = st.name) ∧
      (st.name ≠ none → r.name ≠ none) ∧
      (strTruthy fl.last_name = true → r.last_name = fl.last_name) ∧
      (strTruthy fl.last_name = false → r.last_name = st.last_name) ∧
      (st.last_name ≠ none → r.last_name ≠ none) ∧
      (strTruthy fl.first_name = true → r.first_name = fl.first_name) ∧
      (strTruthy fl.first_name = false → r.first_name = st.first_name) ∧
      (st.first_name ≠ none → r.first_name ≠ none) ∧
      (strTruthy fl.middle_name = true → r.middle_name = fl.middle_name) ∧
      (strTruthy fl.middle_name = false → r.middle_name = st.middle_name) ∧
      (st.middle_name ≠ none → r.middle_name ≠ none) ∧
      (strTruthy fl.email = true → r.email = fl.email) ∧
      (strTruthy fl.email = false → r.email = st.email) ∧
      (st.email ≠ none → r.email ≠ none) ∧
      (strTruthy fl.phone = true → r.phone = fl.phone) ∧
      (strTruthy fl.phone = false → r.phone = st.phone) ∧
      (st.phone ≠ none → r.phone ≠ none) ∧
      (∀ t, fl.type = .str t → r.type = some t) ∧
      (fl.type = .null → r.type = none) ∧
      (fl.type = .absent → r.type = st.type) ∧
      (∀ t, fl.api_updated_at = some t → r.updated_at_api = some t) ∧
      (fl.api_updated_at = none → r.updated_at_api = st.updated_at_api) := by
  intro r hr hrp
  have hsave : saveStaffFromApi resolver db d now
      = (replaceFirst db fl.staff_id (fun q => updateStaffRow q fl now),
         some fl.staff_id) := by
    simp only [saveStaffFromApi, hfl, hfind]
  rw [hsave] at hr
  replace hr : r ∈ replaceFirst db fl.staff_id (fun q => updateStaffRow q fl now) := hr
  have hfp : ∀ q : Staff, (updateStaffRow q fl now).person_id = q.person_id :=
    fun q => rfl
  have hre : r = updateStaffRow st fl now :=
    replaceFirst_target hnd hfp hfind r hr hrp
  subst hre
  refine ⟨rfl, rfl, rfl, rfl, rfl, ?_, ?_, ?_, ?_, ?_, ?_, ?_, ?_, ?_, ?_, ?_, ?_,
    ?_, ?_, ?_, ?_, ?_, ?_, ?_, ?_, ?_, ?_, ?_⟩
  · intro h
    simp [updateStaffRow, h]
  · intro h
    simp [updateStaffRow, h]
  · intro h
    show (if (fl.full_name != "") = true then some fl.full_name else st.name) ≠ none
    split
    · exact fun hc => by cases hc
    · exact h
  · intro h
    simp [updateStaffRow, orKeep, h]
  · intro h
    simp [updateStaffRow, orKeep, h]
  · exact fun h => orKeep_ne_none h
  · intro h
    simp [updateStaffRow, orKeep, h]
  · intro h
    simp [updateStaffRow, orKeep, h]
  · exact fun h => orKeep_ne_none h
  · intro h
    simp [updateStaffRow, orKeep, h]
  · intro h
    simp [updateStaffRow, orKeep, h]
  · exact fun h => orKeep_ne_none h
  · intro h
    simp [updateStaffRow, orKeep, h]
  · intro h
    simp [updateStaffRow, orKeep, h]
  · exact fun h => orKeep_ne_none h
  · intro h
    simp [updateStaffRow, orKeep, h]
  · intro h
    simp [updateStaffRow, orKeep, h]
  · exact fun h => orKeep_ne_none h
  · intro t h
    simp [updateStaffRow, h]
  · intro h
    simp [updateStaffRow, h]
  · intro h
    simp [updateStaffRow, h]
  · intro t h
    simp [updateStaffRow, orKeepT, h]
  · intro h
    simp [updateStaffRow, orKeepT, h]

/-- Claim C2, counterexample to the original claim: richRow holds resolved
external-identity fields and a populated type, yet a sighting of the same
person whose payload carries no user_integration_id and an explicit null
under the type key resets max_user_id, max_link_path and type to None —
populated fields regress to empty through the update branch. -/
theorem saveStaff_max_field_regression :
    richRow.max_user_id = some "777" ∧ richRow.max_link_path = some "lnk" ∧
    richRow.type = some "teacher" ∧
    ((saveStaffFromApi (fun _ => none) [richRow] sparseData 9).1.head?.map
        Staff.max_user_id) = some none ∧
    ((saveStaffFromApi (fun _ => none) [richRow] sparseData 9).1.head?.map
        Staff.max_link_path) = some none ∧
    ((saveStaffFromApi (fun _ => none) [richRow] sparseData 9).1.head?.map
        Staff.type) = some none := by
  decide

/-- Claim C2, witness: the update-semantics theorem applied to richRow being
re-sighted with fullerData: the name parts are overwritten with the split
name, the populated email is kept, and the row is forced active. -/
theorem saveStaff_update_fields_witness :
    extractStaffFields (fun _ => none) fullerData = some fullerFields ∧
    findStaff [richRow] fullerFields.staff_id = some richRow ∧
    (updateStaffRow richRow fullerFields 7).is_active = true ∧
    (updateStaffRow richRow fullerFields 7).deactivated_at = none ∧
    (updateStaffRow richRow fullerFields 7).last_name = some "Ivanov" ∧
    (updateStaffRow richRow fullerFields 7).email = some "a@b.c" := by
  have h := saveStaff_update_fields (fun _ => none) [richRow] fullerData 7
    fullerFields richRow (by decide) (by decide) (by decide)
  have h2 := h (updateStaffRow richRow fullerFields 7) (by decide) (by decide)
  refine ⟨by decide, by decide, h2.1, h2.2.1, ?_, ?_⟩
  · have := h2.2.2.2.2.2.2.2.2.1 (by decide)
    rw [this]
    decide
  · have := h2.2.2.2.2.2.2.2.2.2.2.2.2.2.2.2.2.2.2.1 (by decide)
    rw [this]
    decide

/-- Claim C3, amended: get_max_data memoizes per id, but only the results
produced by a stage-2 HTTP 200 fetch: a cached entry is returned as-is with
zero network requests; a successful two-stage resolution stores its result so
that a subsequent call for the same id performs zero requests; but a call
that returns None (here: a non-200, non-429 stage-1 status) stores nothing,
leaving the cache unchanged, so the "not found" outcome is re-fetched. The
original claim's "including a not-found outcome" is refuted by the
counterexample. -/
theorem getMaxData_memoization (cache : MaxCache) (script script2 : List NetEvent)
    (personId staffId : Option Nat) (maxRetries : Nat) (key : String) (md : MaxData)
    (hkey : selIdKey personId staffId = some key) :
    (maxCacheLookup cache key = some md →
       getMaxData cache script personId staffId maxRetries = (some md, cache, ⟨0, []⟩)) ∧
    (∀ link pid rest, maxCacheLookup cache key = none → 1 ≤ maxRetries →
       script = .resp ⟨200, none, some link⟩ :: .resp ⟨200, none, pid⟩ :: rest →
       getMaxData cache script personId staffId maxRetries
         = (some ⟨pid, link⟩, (key, ⟨pid, link⟩) :: cache, ⟨2, [2]⟩) ∧
       getMaxData ((key, ⟨pid, link⟩) :: cache) script2 personId staffId maxRetries
         = (some ⟨pid, link⟩, (key, ⟨pid, link⟩) :: cache, ⟨0, []⟩)) ∧
    (∀ c ra b rest, maxCacheLookup cache key = none → 1 ≤ maxRetries →
       c ≠ 200 → c ≠ 429 →
       getMaxData cache (.resp ⟨c, ra, b⟩ :: rest) personId staffId maxRetries
         = (none, cache, ⟨1, []⟩)) := by
  refine ⟨?_, ?_, ?_⟩
  · intro hc
    simp [getMaxData, hkey, hc]
  · intro link pid rest hb hm hs
    subst hs
    constructor
    · simp [getMaxData, hkey, hb, getMaxDataGo, hm]
      omega
    · simp [getMaxData, hkey, maxCacheLookup]
  · intro c ra b rest hb hm hc1 hc2
    simp [getMaxData, hkey, hb, getMaxDataGo, hm, hc1, hc2]
    omega

/-- Claim C3, counterexample to the original claim: a first call for staff 1
whose stage-1 request answers 404 completes with the "not found" outcome None
and leaves the cache empty, and the identical second call again issues a
network request instead of returning a remembered result. -/
theorem getMaxData_not_found_not_memoized :
    getMaxData [] [.resp ⟨404, none, none⟩] none (some 1) 3 = (none, [], ⟨1, []⟩) ∧
    ¬ (getMaxData ((getMaxData [] [.resp ⟨404, none, none⟩] none (some 1) 3).2.1)
        [.resp ⟨404, none, none⟩] none (some 1) 3).2.2.requests = 0 := by
  decide

/-- Claim C3, witness: for staff 1 with a cached resolution, the call returns
the cached value with zero requests. -/
theorem getMaxData_memoization_witness :
    selIdKey none (some 1) = some "max_data_staff_1" ∧
    maxCacheLookup [("max_data_staff_1", ⟨some "42", "L"⟩)] "max_data_staff_1"
      = some ⟨some "42", "L"⟩ ∧
    getMaxData [("max_data_staff_1", ⟨some "42", "L"⟩)] [] none (some 1) 3
      = (some ⟨some "42", "L"⟩, [("max_data_staff_1", ⟨some "42", "L"⟩)], ⟨0, []⟩) := by
  refine ⟨by decide, by decide, ?_⟩
  exact (getMaxData_memoization [("max_data_staff_1", ⟨some "42", "L"⟩)] [] []
    none (some 1) 3 "max_data_staff_1" ⟨some "42", "L"⟩ (by decide)).1 (by decide)

/-- Claim C4: for _check_max_api_limit with its fixed limit of 100 per
60-second window: a call whose counter is at least 90 — i.e. the 91st through
100th (and later) admitted call of the window — invoked strictly before the
window deadline observes a proactive wait until the deadline and restarts the
window with counter 1; a call whose counter is below 90, in particular the
call right after an internal reset, does not wait; a call arriving strictly
after the deadline resets the window and does not wait; and every admission
increments the counter from its post-reset value. -/
theorem checkMaxApiLimit_spec (st : MaxApiState) (now : Nat) :
    (90 ≤ st.max_api_calls → now < st.max_api_reset_time →
       (checkMaxApiLimit st now).waited = true ∧
       (checkMaxApiLimit st now).state.max_api_calls = 1 ∧
       (checkMaxApiLimit st now).state.max_api_reset_time = st.max_api_reset_time + 60 ∧
       (checkMaxApiLimit st now).wait_seconds = st.max_api_reset_time - now) ∧
    (st.max_api_calls < 90 → (checkMaxApiLimit st now).waited = false) ∧
    (st.max_api_reset_time < now →
       (checkMaxApiLimit st now).waited = false ∧
       (checkMaxApiLimit st now).state.max_api_calls = 1) ∧
    ((checkMaxApiLimit st now).waited = false → now ≤ st.max_api_reset_time →
       (checkMaxApiLimit st now).state.max_api_calls = st.max_api_calls + 1) ∧
    ((checkMaxApiLimit st now).waited = true →
       (checkMaxApiLimit st now).state.max_api_calls = 1) := by
  refine ⟨?_, ?_, ?_, ?_, ?_⟩
  · intro h90 hlt
    have h1 : ¬ st.max_api_reset_time < now := by omega
    rw [checkMaxApiLimit, if_neg h1, checkMaxApiLimitCore,
      if_pos (by omega : 100 - 10 ≤ st.max_api_calls),
      if_pos (by omega : 0 < st.max_api_reset_time - now)]
    refine ⟨rfl, rfl, ?_, rfl⟩
    show now + (st.max_api_reset_time - now) + 60 = st.max_api_reset_time + 60
    omega
  · intro h90
    by_cases h1 : st.max_api_reset_time < now
    · rw [checkMaxApiLimit, if_pos h1, checkMaxApiLimitCore,
        if_neg (by simp : ¬ 100 - 10 ≤ (⟨0, now + 60⟩ : MaxApiState).max_api_calls)]
    · rw [checkMaxApiLimit, if_neg h1, checkMaxApiLimitCore,
        if_neg (by omega : ¬ 100 - 10 ≤ st.max_api_calls)]
  · intro h1
    rw [checkMaxApiLimit, if_pos h1, checkMaxApiLimitCore,
      if_neg (by simp : ¬ 100 - 10 ≤ (⟨0, now + 60⟩ : MaxApiState).max_api_calls)]
    exact ⟨rfl, rfl⟩
  · intro hw hle
    have h1 : ¬ st.max_api_reset_time < now := by omega
    rw [checkMaxApiLimit, if_neg h1, checkMaxApiLimitCore] at hw ⊢
    by_cases h2 : 100 - 10 ≤ st.max_api_calls
    · rw [if_pos h2] at hw ⊢
      by_cases h3 : 0 < st.max_api_reset_time - now
      · rw [if_pos h3] at hw
        cases hw
      · rw [if_neg h3]
    · rw [if_neg h2] at hw ⊢
  · intro hw
    by_cases h1 : st.max_api_reset_time < now
    · rw [checkMaxApiLimit, if_pos h1, checkMaxApiLimitCore,
        if_neg (by simp : ¬ 100 - 10 ≤ (⟨0, now + 60⟩ : MaxApiState).max_api_calls)] at hw
      cases hw
    · rw [checkMaxApiLimit, if_neg h1, checkMaxApiLimitCore] at hw ⊢
      by_cases h2 : 100 - 10 ≤ st.max_api_calls
      · rw [if_pos h2] at hw ⊢
        by_cases h3 : 0 < st.max_api_reset_time - now
        · rw [if_pos h3]
        · rw [if_neg h3] at hw
          cases hw
      · rw [if_neg h2] at hw
        cases hw

/-- Claim C4, witness: from a fresh-window state with counter 90 (the 91st
admitted call) invoked at time 50 before the deadline 60, the limiter waits
and restarts with counter 1; with counter 89 it does not wait. -/
theorem checkMaxApiLimit_spec_witness :
    90 ≤ (⟨90, 60⟩ : MaxApiState).max_api_calls ∧
    (50 : Nat) < (⟨90, 60⟩ : MaxApiState).max_api_reset_time ∧
    (checkMaxApiLimit ⟨90, 60⟩ 50).waited = true ∧
    (checkMaxApiLimit ⟨90, 60⟩ 50).state.max_api_calls = 1 ∧
    (checkMaxApiLimit ⟨89, 60⟩ 50).waited = false := by
  have h1 := (checkMaxApiLimit_spec ⟨90, 60⟩ 50).1 (by decide) (by decide)
  have h2 := (checkMaxApiLimit_spec ⟨89, 60⟩ 50).2.1 (by decide)
  exact ⟨by decide, by decide, h1.1, h1.2.1, h2⟩

/-- Claim C5: in stage 1 of get_max_data, an HTTP 429 answer causes a sleep of
the Retry-After value (30 seconds when the header is absent) and a retry,
bounded by max_retries = 3 total attempts — three consecutive 429 answers
give exactly 3 requests, the three recorded sleeps, and None, whatever the
rest of the script holds; and any non-200, non-429 status returns None
immediately after a single request with no sleep. -/
theorem getMaxData_stage1_retry (cache : MaxCache) (personId staffId : Option Nat)
    (key : String) (ra1 ra2 ra3 ra : Option Nat) (rest rest2 : List NetEvent)
    (c : Nat) (b : Option String)
    (hkey : selIdKey personId staffId = some key)
    (hmiss : maxCacheLookup cache key = none) :
    (getMaxData cache
        (.resp ⟨429, ra1, none⟩ :: .resp ⟨429, ra2, none⟩ :: .resp ⟨429, ra3, none⟩ :: rest)
        personId staffId 3
      = (none, cache, ⟨3, [ra1.getD 30, ra2.getD 30, ra3.getD 30]⟩)) ∧
    (c ≠ 200 → c ≠ 429 →
      getMaxData cache (.resp ⟨c, ra, b⟩ :: rest2) personId staffId 3
        = (none, cache, ⟨1, []⟩)) := by
  constructor
  · simp only [getMaxData, hkey, hmiss]
    cases rest with
    | nil => simp [getMaxDataGo]
    | cons e es => cases e <;> simp [getMaxDataGo]
  · intro hc1 hc2
    simp only [getMaxData, hkey, hmiss]
    simp [getMaxDataGo, hc1, hc2]

/-- Claim C5, witness: for staff 1 with an empty cache, three 429 answers with
Retry-After 7, absent, 9 produce sleeps [7, 30, 9], three requests and None;
a 404 returns None after one request. -/
theorem getMaxData_stage1_retry_witness :
    selIdKey none (some 1) = some "max_data_staff_1" ∧
    maxCacheLookup ([] : MaxCache) "max_data_staff_1" = none ∧
    getMaxData [] [.resp ⟨429, some 7, none⟩, .resp ⟨429, none, none⟩,
        .resp ⟨429, some 9, none⟩] none (some 1) 3 = (none, [], ⟨3, [7, 30, 9]⟩) ∧
    getMaxData [] [.resp ⟨404, none, none⟩] none (some 1) 3 = (none, [], ⟨1, []⟩) := by
  have h := getMaxData_stage1_retry [] none (some 1) "max_data_staff_1"
    (some 7) none (some 9) none [] [] 404 none (by decide) (by decide)
  exact ⟨by decide, by decide, h.1, h.2 (by decide) (by decide)⟩

/-- Claim C6: CacheManager.get on a key whose entry is younger than the TTL
returns the stored value and increments the hit counter, and _api_request then
answers from the cache with no network request; on a key whose entry is at
least TTL old, get evicts the entry, increments the miss counter and returns
absent, and the next identical _api_request issues a fresh network request. -/
theorem cacheManager_ttl_spec {V : Type} (cm : CacheManager V)
    (endpoint params : String) (v : V) (ts now : Nat) (net : ApiNetResp V)
    (hfound : cacheLookup cm.cache (get_cache_key endpoint params) = some (v, ts)) :
    (now - ts < cm.cache_ttl →
       cm.get (get_cache_key endpoint params) now = (some v, { cm with hits := cm.hits + 1 }) ∧
       apiRequest cm endpoint params now net
         = (some v, { cm with hits := cm.hits + 1 }, false)) ∧
    (cm.cache_ttl ≤ now - ts →
       (cm.get (get_cache_key endpoint params) now).1 = none ∧
       (cm.get (get_cache_key endpoint params) now).2.misses = cm.misses + 1 ∧
       cacheLookup (cm.get (get_cache_key endpoint params) now).2.cache
         (get_cache_key endpoint params) = none ∧
       (apiRequest cm endpoint params now net).2.2 = true) := by
  constructor
  · intro hfresh
    have hget : cm.get (get_cache_key endpoint params) now
        = (some v, { cm with hits := cm.hits + 1 }) := by
      simp [CacheManager.get, hfound, hfresh]
    refine ⟨hget, ?_⟩
    simp [apiRequest, hget]
  · intro hstale
    have hnl : ¬ now - ts < cm.cache_ttl := by omega
    have hget : cm.get (get_cache_key endpoint params) now
        = (none, { cm with cache := cacheErase cm.cache (get_cache_key endpoint params),
                           misses := cm.misses + 1 }) := by
      simp [CacheManager.get, hfound, hnl]
    refine ⟨by rw [hget], by rw [hget], ?_, ?_⟩
    · rw [hget]
      show cacheLookup (cacheErase cm.cache (get_cache_key endpoint params))
        (get_cache_key endpoint params) = none
      generalize cm.cache = l
      induction l with
      | nil => rfl
      | cons e es ih =>
        by_cases he : e.1 = get_cache_key endpoint params
        · simpa [cacheErase, he] using ih
        · simpa [cacheErase, cacheLookup, he] using ih
    · cases net <;> simp [apiRequest, hget]

/-- Claim C6, witness: an entry stored at time 0 hits at time 299 with the
hit counter bumped and no request; at time 300 it misses, is evicted, and the
request goes to the network. -/
theorem cacheManager_ttl_spec_witness :
    cacheLookup (⟨[("e:p", 5, 0)], 300, 0, 0⟩ : CacheManager Nat).cache
      (get_cache_key "e" "p") = some (5, 0) ∧
    (299 : Nat) - 0 < 300 ∧ (300 : Nat) ≤ 300 - 0 ∧
    CacheManager.get (⟨[("e:p", 5, 0)], 300, 0, 0⟩ : CacheManager Nat)
      (get_cache_key "e" "p") 299 = (some 5, ⟨[("e:p", 5, 0)], 300, 1, 0⟩) ∧
    (CacheManager.get (⟨[("e:p", 5, 0)], 300, 0, 0⟩ : CacheManager Nat)
      (get_cache_key "e" "p") 300).1 = none ∧
    (apiRequest (⟨[("e:p", 5, 0)], 300, 0, 0⟩ : CacheManager Nat) "e" "p" 300
      (ApiNetResp.ok 7)).2.2 = true := by
  have h1 := (cacheManager_ttl_spec (⟨[("e:p", 5, 0)], 300, 0, 0⟩ : CacheManager Nat)
    "e" "p" 5 0 299 (ApiNetResp.ok 7) (by decide)).1 (by decide)
  have h2 := (cacheManager_ttl_spec (⟨[("e:p", 5, 0)], 300, 0, 0⟩ : CacheManager Nat)
    "e" "p" 5 0 300 (ApiNetResp.ok 7) (by decide)).2 (by decide)
  exact ⟨by decide, by decide, by decide, h1.1, h2.1, h2.2.2.2⟩

/-- Claim C7: for a Staff sync whose page 1 returns 10 records (2 lacking
user_id, the rest valid with non-suspicious names and distinct ids) and whose
page 2 returns 4 valid records, sync_all_staff saves 12 records, counts 2
skipped for missing user_id and 0 duplicates, and stops after page 2 because
4 < 10: a third page is never consumed, its id never appears in the saved
set, and the loop counter stops at 2. -/
theorem syncAllStaff_two_page_scenario :
    (syncAllStaff (fun _ => none) [demoPage1, demoPage2, demoPage3] [] 0).2.1.total_loaded = 12 ∧
    (syncAllStaff (fun _ => none) [demoPage1, demoPage2, demoPage3] [] 0).2.1.no_user_id = 2 ∧
    (syncAllStaff (fun _ => none) [demoPage1, demoPage2, demoPage3] [] 0).2.1.duplicates = 0 ∧
    (syncAllStaff (fun _ => none) [demoPage1, demoPage2, demoPage3] [] 0).2.1.errors = 0 ∧
    (syncAllStaff (fun _ => none) [demoPage1, demoPage2, demoPage3] [] 0).2.1.pages_fetched = 2 ∧
    (syncAllStaff (fun _ => none) [demoPage1, demoPage2, demoPage3] [] 0).2.1.saved_ids
      = [1, 2, 3, 4, 5, 6, 7, 8, 11, 12, 13, 14] ∧
    999 ∉ (syncAllStaff (fun _ => none) [demoPage1, demoPage2, demoPage3] [] 0).2.1.saved_ids ∧
    demoPage1.length = 10 ∧ demoPage2.length = 4 := by
  decide

/-- Claim C8: link_parent_to_student is idempotent: when a relation row for
the pair already exists, the call inserts nothing and returns false; and on a
table in which the pair occurs at most once (the unique constraint
uq_parent_student), two successive calls leave exactly one row for the pair. -/
theorem linkParentToStudent_idempotent (table : List (Nat × Nat)) (p s : Nat) :
    ((p, s) ∈ table → linkParentToStudent table p s = (table, false)) ∧
    (List.count (p, s) table ≤ 1 →
       List.count (p, s)
         (linkParentToStudent (linkParentToStudent table p s).1 p s).1 = 1) := by
  constructor
  · intro h
    rw [linkParentToStudent, if_pos h]
  · intro hcount
    by_cases h : (p, s) ∈ table
    · have hfirst : linkParentToStudent table p s = (table, false) := by
        rw [linkParentToStudent, if_pos h]
      rw [hfirst]
      show List.count (p, s) (linkParentToStudent table p s).1 = 1
      rw [hfirst]
      have h1 : 1 ≤ List.count (p, s) table := List.one_le_count_iff.mpr h
      show List.count (p, s) table = 1
      omega
    · have hfirst : linkParentToStudent table p s = (table ++ [(p, s)], true) := by
        rw [linkParentToStudent, if_neg h]
      rw [hfirst]
      show List.count (p, s) (linkParentToStudent (table ++ [(p, s)]) p s).1 = 1
      have hmem : (p, s) ∈ table ++ [(p, s)] :=
        List.mem_append_right table (List.mem_singleton.mpr rfl)
      rw [linkParentToStudent, if_pos hmem]
      show List.count (p, s) (table ++ [(p, s)]) = 1
      have h0 : List.count (p, s) table = 0 := List.count_eq_zero.mpr h
      rw [List.count_append, h0]
      simp

/-- Claim C8, witness: with the pair (1, 2) already present the call is a
no-op returning false, and linking twice from an empty table leaves exactly
one row. -/
theorem linkParentToStudent_idempotent_witness :
    (1, 2) ∈ [((1 : Nat), (2 : Nat))] ∧
    linkParentToStudent [((1 : Nat), (2 : Nat))] 1 2 = ([(1, 2)], false) ∧
    List.count ((1 : Nat), (2 : Nat))
      (linkParentToStudent (linkParentToStudent [] 1 2).1 1 2).1 = 1 := by
  have h1 := (linkParentToStudent_idempotent [((1 : Nat), (2 : Nat))] 1 2).1 (by decide)
  have h2 := (linkParentToStudent_idempotent [] 1 2).2 (by decide)
  exact ⟨by decide, h1, h2⟩

/-- Claim C9: is_suspicious_name classifies None, the empty string and any
non-string value as suspicious, before any pattern matching; consequently the
staff sync skips a record carrying such a name: a valid single-record page
whose name is None saves nothing. -/
theorem is_suspicious_name_guard :
    is_suspicious_name .pnone = true ∧
    is_suspicious_name (.pstr "") = true ∧
    is_suspicious_name .pother = true ∧
    (syncAllStaff (fun _ => none)
      [[ApiRecord.record ⟨some 1, some 2, .pnone, emptyUser, .absent, none, none⟩]]
      [] 0).2.1.total_loaded = 0 ∧
    (syncAllStaff (fun _ => none)
      [[ApiRecord.record ⟨some 1, some 2, .pnone, emptyUser, .absent, none, none⟩]]
      [] 0).2.1.saved_ids = [] ∧
    (syncAllStaff (fun _ => none)
      [[ApiRecord.record ⟨some 1, some 2, .pnone, emptyUser, .absent, none, none⟩]]
      [] 0).1 = [] := by
  decide

/-- Claim C10: deactivate_missing_staff called with an empty active-id set
returns 0 and leaves the table untouched — no row's is_active, deactivated_at
or updated_at changes. -/
theorem deactivateMissingStaff_empty_noop (db : List Staff) (now : Nat) :
    deactivateMissingStaff [] db now = (db, 0) := rfl
